import Mathlib

/-!
Verification of the Multi-Source RAG Engine against its specification.

The development shallowly embeds the repository's Python code:

* `src/vector_store.py` (`create_vector_store`) together with the text
  splitter it instantiates, langchain's `RecursiveCharacterTextSplitter`
  with `chunk_size=1000`, `chunk_overlap=200`, `length_function=len` and
  the library defaults `separators=["\n\n", "\n", " ", ""]`,
  `keep_separator=True`, `strip_whitespace=True`;
* `src/video_processor.py` (`get_video_transcript`,
  `_transcribe_audio_with_whisper`), with the YouTube transcript API,
  the audio downloader and the Whisper model as oracles and the file
  system as an explicit list of file names;
* `src/app.py` (session state, `process_new_source`,
  `generate_suggested_questions`, `load_and_cache_document`, the chat
  history rendering gate and the response-streaming block), with the
  language model, the loaders and the RAG chain stream as oracles.

External services (LLM calls, embeddings, Chroma, network loaders,
yt-dlp, Whisper) are parameters; everything the repository's own lines
compute is modelled executably.  Recursive text functions use explicit
fuel that provably suffices for the recursion depth, so every definition
is structurally recursive and kernel-evaluable.
-/

/-! ## Python string primitives used by the code -/

/-- Python's `\s` / `str.strip` whitespace class (ASCII part). -/
def isPySpace (c : Char) : Bool :=
  c = ' ' || c = '\t' || c = '\n' || c = '\r' || c = '\x0b' || c = '\x0c'

/-- Python `str.strip()`: drop leading and trailing whitespace. -/
def pyStrip (s : String) : String :=
  String.mk (((s.data.dropWhile isPySpace).reverse.dropWhile isPySpace).reverse)

/-- Python `sep.join(parts)`. -/
def pyJoin (sep : String) : List String → String
  | [] => ""
  | [x] => x
  | x :: y :: rest => x ++ sep ++ pyJoin sep (y :: rest)

/-- Concatenation of a list of strings (`"".join`). -/
def concatAll : List String → String
  | [] => ""
  | s :: rest => s ++ concatAll rest

/-- Split on a non-empty literal separator, left to right, non-overlapping
(Python `str.split(sep)` and `re.split` on an escaped literal).  The fuel
decreases by one per step while at least one character is consumed per
step, so `text.length + 1` fuel is always exact. -/
def lsplit (sep : List Char) : Nat → List Char → List (List Char)
  | _, [] => [[]]
  | 0, text => [text]
  | fuel + 1, c :: rest =>
    if sep ≠ [] ∧ sep.isPrefixOf (c :: rest) then
      [] :: lsplit sep fuel ((c :: rest).drop sep.length)
    else
      match lsplit sep fuel rest with
      | [] => [[c]]
      | p :: ps => (c :: p) :: ps

/-- Python `text.split(sep)` for a non-empty separator. -/
def pySplit (sep : String) (text : String) : List String :=
  (lsplit sep.data (text.data.length + 1) text.data).map String.mk

/-- Python `re.search(re.escape(sep), text)`: substring containment. -/
def containsSub (text sep : List Char) : Bool :=
  text.tails.any (fun t => sep.isPrefixOf t)

/-- Python `str.startswith`. -/
def startsWithStr (s pre : String) : Bool :=
  pre.data.isPrefixOf s.data

/-! ## Data model

`Document` (langchain) carries the text of one extracted segment; the
metadata plays no role in any claim and is omitted. -/

structure Doc where
  page_content : String
deriving DecidableEq, Repr

/-! ## The text splitter (`RecursiveCharacterTextSplitter`)

Modelled from the langchain library code that
`src/vector_store.py:21-27` instantiates:
`chunk_size=1000`, `chunk_overlap=200`, `length_function=len`,
default `separators=["\n\n", "\n", " ", ""]`, `keep_separator=True`,
`strip_whitespace=True`.  With `keep_separator=True` the separator is
re-attached to the front of the following split and `_merge_splits`
joins with the empty separator. -/

def chunkSize : Nat := 1000

def chunkOverlap : Nat := 200

def defaultSeparators : List String := ["\n\n", "\n", " ", ""]

/-- The separator-selection loop at the top of `_split_text`: the first
separator that is `""` or occurs in the text is chosen, together with
the remaining separators; when none matches the last separator is kept
with no remaining ones. -/
def chooseSepAux : List String → String → Option (String × List String)
  | [], _ => none
  | s :: rest, text =>
    if s = "" then some ("", [])
    else if containsSub text.data s.data then some (s, rest)
    else chooseSepAux rest text

def chooseSep (separators : List String) (text : String) : String × List String :=
  match chooseSepAux separators text with
  | some r => r
  | none => ((separators.getLast?).getD "", [])

/-- `_split_text_with_regex` with `keep_separator=True`: split on the
literal separator, re-attach each separator occurrence to the front of
the following piece, drop empty pieces.  The empty separator splits into
single characters. -/
def splitWithSep (separator : String) (text : String) : List String :=
  if separator = "" then
    (text.data.map (fun c => String.mk [c])).filter (fun s => s ≠ "")
  else
    match pySplit separator text with
    | [] => []
    | p0 :: rest => (p0 :: rest.map (fun p => separator ++ p)).filter (fun s => s ≠ "")

/-- `_join_docs` with the empty join separator: concatenate, strip,
drop the chunk when nothing is left. -/
def joinDocs (current : List String) : Option String :=
  let text := pyStrip (concatAll current)
  if text = "" then none else some text

/-- The overlap-keeping pop loop of `_merge_splits`: drop leading pieces
while the running total exceeds the overlap, or the total plus the
incoming piece would exceed the chunk size. -/
def popLoop (lenD : Nat) : List String → Nat → List String × Nat
  | [], total => ([], total)
  | h :: t, total =>
    if chunkOverlap < total ∨ (chunkSize < total + lenD ∧ 0 < total) then
      popLoop lenD t (total - h.length)
    else (h :: t, total)

/-- One iteration of the `_merge_splits` loop (separator length 0):
state is (emitted chunks, current window, window length). -/
def mergeStep (st : List String × List String × Nat) (d : String) :
    List String × List String × Nat :=
  let docs := st.1
  let current := st.2.1
  let total := st.2.2
  let lenD := d.length
  let next :=
    if chunkSize < total + lenD then
      if current.isEmpty then (docs, current, total)
      else
        let docs2 := docs ++ (joinDocs current).toList
        let pc := popLoop lenD current total
        (docs2, pc.1, pc.2)
    else (docs, current, total)
  (next.1, next.2.1 ++ [d], next.2.2 + lenD)

/-- `_merge_splits` with the empty join separator. -/
def mergeSplits (splits : List String) : List String :=
  let fin := splits.foldl mergeStep ([], [], 0)
  fin.1 ++ (joinDocs fin.2.1).toList

/-- The body of the split loop in `_split_text`: small splits accumulate
into the current run of good splits, a split at least as long as the
chunk size flushes the merged run and is handled by `handleBig`
(recursion on the remaining separators, or emitted as-is when none are
left). -/
def splitStep (handleBig : String → List String)
    (acc : List String × List String) (s : String) : List String × List String :=
  if s.length < chunkSize then (acc.1, acc.2 ++ [s])
  else
    (acc.1 ++ (if acc.2.isEmpty then [] else mergeSplits acc.2) ++ handleBig s, [])

/-- Flush of the final run of good splits at the end of `_split_text`. -/
def splitFinish (acc : List String × List String) : List String :=
  acc.1 ++ (if acc.2.isEmpty then [] else mergeSplits acc.2)

/-- `_split_text(text, separators)`.  The recursion passes a strictly
shorter separator list, so fuel `separators.length + 1` is exact. -/
def recSplit : Nat → List String → String → List String
  | 0, _, _ => []
  | Nat.succ f, separators, text =>
    let p := chooseSep separators text
    let handleBig := fun s => if p.2.isEmpty then [s] else recSplit f p.2 s
    splitFinish ((splitWithSep p.1 text).foldl (splitStep handleBig) ([], []))

/-- `split_text` of the configured splitter. -/
def split_text (text : String) : List String :=
  recSplit (defaultSeparators.length + 1) defaultSeparators text

/-- `split_documents`: split each document's text, one chunk document per
produced chunk. -/
def split_documents (docs : List Doc) : List Doc :=
  docs.flatMap (fun d => (split_text d.page_content).map Doc.mk)

/-! ## Indexer (`src/vector_store.py`, `create_vector_store`)

`Chroma.from_documents` and the embedding model are external; the vector
store is modelled by the chunk documents it holds.  The two `raise
ValueError` statements are the spec's `IndexingError`; they are modelled
as `Except.error` carrying the raised message. -/

structure VectorStore where
  chunks : List Doc
deriving DecidableEq, Repr

def create_vector_store (documents : List Doc) : Except String VectorStore :=
  if documents.isEmpty then
    Except.error "Cannot create vector store from empty documents list."
  else
    let chunks := split_documents documents
    if chunks.isEmpty then
      Except.error "Documents could not be split into chunks."
    else Except.ok ⟨chunks⟩

/-! ## RAG pipeline (`src/rag_pipeline.py`, `create_rag_chain`)

The chain wraps the retriever and two prompt templates around the
external Gemini model; its one repository-level failure mode is the LLM
initialisation (`try ... raise`), modelled by the `llmInit` flag.  The
chain value is represented by the retriever's chunk list. -/

structure RagChain where
  retrieverChunks : List Doc
deriving DecidableEq, Repr

def create_rag_chain (llmInit : Bool) (vs : VectorStore) : Except String RagChain :=
  if llmInit then Except.ok ⟨vs.chunks⟩
  else Except.error "Failed to initialize Gemini model"

/-! ## Conversation turns and session state (`src/app.py:44-51`) -/

/-- A `HumanMessage`, or an `AIMessage` whose `additional_kwargs["context"]`
holds the context documents attached at `src/app.py:157`. -/
inductive Msg where
  | human (content : String)
  | ai (content : String) (context : List Doc)
deriving DecidableEq, Repr

structure SessionState where
  rag_chain : Option RagChain
  chat_history : List Msg
  suggested_questions : List String
  source_name : String
deriving DecidableEq, Repr

/-- The four `st.session_state` slots as initialised at `src/app.py:44-51`. -/
def initialSessionState : SessionState :=
  { rag_chain := none, chat_history := [], suggested_questions := [], source_name := "" }

/-! ## Suggested questions (`src/app.py:54-66`)

The Gemini call is the oracle `llm : String → Option String` (`none`
models the call raising, which the function swallows into `[]`).  The
`re.findall(r'\d+\.\s*(.*?)(?=\n\d+\.|$)', text, re.DOTALL)` parse of the
response is modelled exactly below. -/

/-- Match `\d+\.` at the head: a maximal digit run followed by a dot,
returning the rest. -/
def startsNumDot : List Char → Option (List Char)
  | [] => none
  | c :: rest =>
    if c.isDigit then
      match rest.dropWhile Char.isDigit with
      | '.' :: r2 => some r2
      | _ => none
    else none

/-- The lookahead `(?=\n\d+\.|$)` (no `re.MULTILINE`, so `$` matches at
the end of the string or just before one final newline). -/
def lookaheadOk : List Char → Bool
  | [] => true
  | ['\n'] => true
  | '\n' :: rest => (startsNumDot rest).isSome
  | _ => false

/-- The lazy capture `(.*?)` with `re.DOTALL`: the shortest prefix after
which the lookahead succeeds (it always succeeds at the end). -/
def captureUntil : List Char → List Char × List Char
  | [] => ([], [])
  | c :: rest =>
    if lookaheadOk (c :: rest) then ([], c :: rest)
    else
      let pr := captureUntil rest
      (c :: pr.1, pr.2)

/-- The `re.findall` scan: at each position try `\d+\.`, then the greedy
`\s*`, then the lazy capture; continue after the match (the lookahead
consumes nothing).  Every step consumes at least one character, so fuel
`length + 1` is exact. -/
def findallAux : Nat → List Char → List (List Char)
  | 0, _ => []
  | _ + 1, [] => []
  | fuel + 1, c :: rest =>
    match startsNumDot (c :: rest) with
    | some afterND =>
      let afterWs := afterND.dropWhile isPySpace
      let pr := captureUntil afterWs
      pr.1 :: findallAux fuel pr.2
    | none => findallAux fuel rest

def reFindQuestions (content : String) : List String :=
  (findallAux (content.data.length + 1) content.data).map String.mk

def suggestionPromptHeader : String :=
  "Based on the following text, generate 3 concise, insightful questions a user might want to ask. The questions should be distinct.\n\nText:\n\"\"\""

/-- `generate_suggested_questions` (`src/app.py:54-66`): empty input gives
`[]`; otherwise the first three documents' text joined by spaces and cut
to 4000 characters is put into the prompt, the response is parsed with
the numbered-question regex, and every exception yields `[]`. -/
def generate_suggested_questions (llm : String → Option String) (docs : List Doc) :
    List String :=
  if docs.isEmpty then []
  else
    let combined_content :=
      String.mk ((pyJoin " " (docs.map Doc.page_content |>.take 3)).data.take 4000)
    let prompt := suggestionPromptHeader ++ combined_content ++ "\"\"\"\n\nQuestions:"
    match llm prompt with
    | none => []
    | some content =>
      ((reFindQuestions content).map pyStrip).filter (fun q => q ≠ "")

/-! ## Session coordinator: ingest (`src/app.py:84-92`, `process_new_source`)

The function clears the streamlit caches (not part of the session
state), builds the vector store and the chain (either may raise, which
propagates before any session slot is written), then writes the four
slots in order.  The pair's second component is `some msg` when the call
raised with that message, in which case the first component is the
session state as the caller left it. -/

def process_new_source (llmInit : Bool) (llm : String → Option String)
    (s : SessionState) (source_docs : List Doc) (source_name : String) :
    SessionState × Option String :=
  match create_vector_store source_docs with
  | Except.error e => (s, some e)
  | Except.ok vs =>
    match create_rag_chain llmInit vs with
    | Except.error e => (s, some e)
    | Except.ok chain =>
      ({ rag_chain := some chain
         chat_history := []
         source_name := source_name
         suggested_questions := generate_suggested_questions llm source_docs }, none)

/-! ## Session coordinator: ask (`src/app.py:129-172`)

The chat interface is rendered only when a chain is active
(`src/app.py:129-130`); asking appends a `HumanMessage` and reruns
(`src/app.py:171-172`), and the response-streaming block
(`src/app.py:146-160`) fires when the history ends in a `HumanMessage`,
folds the chain's stream and appends the `AIMessage` with the streamed
context attached. -/

/-- One chunk of `rag_chain.stream(...)`: the dict may carry an
`"answer"` delta and/or a `"context"` document list. -/
structure StreamChunk where
  answer : Option String
  context : Option (List Doc)
deriving DecidableEq, Repr

/-- The stream-folding loop at `src/app.py:150-155`: walrus-`if` skips a
falsy (empty) answer delta and a falsy (empty) context list. -/
def runStream (chunks : List StreamChunk) : String × List Doc :=
  chunks.foldl
    (fun acc c =>
      let acc1 :=
        match c.answer with
        | some a => if a = "" then acc else (acc.1 ++ a, acc.2)
        | none => acc
      match c.context with
      | some ctx => if ctx.isEmpty then acc1 else (acc1.1, ctx)
      | none => acc1)
    ("", [])

/-- The response-streaming block (`src/app.py:146-160`): if the history
ends in a user turn, stream the chain on that prompt and the earlier
history, append the answer turn with the streamed context, and clear the
pending suggestions. -/
def respondStep (rag : String → List Msg → List StreamChunk) (s : SessionState) :
    SessionState :=
  match s.chat_history.getLast? with
  | some (Msg.human prompt) =>
    let res := runStream (rag prompt s.chat_history.dropLast)
    { s with chat_history := s.chat_history ++ [Msg.ai res.1 res.2]
             suggested_questions := [] }
  | _ => s

/-- The chat-input append at `src/app.py:171-172`. -/
def appendUserTurn (s : SessionState) (q : String) : SessionState :=
  { s with chat_history := s.chat_history ++ [Msg.human q] }

/-- The message shown instead of the chat interface when no source has
been processed (`src/app.py:129-130`) — the code's realisation of the
spec's `RetrievalError`. -/
def noSourceMsg : String :=
  "Please process a data source from the sidebar to start a conversation."

/-- One full ask interaction: with no active chain the guard at
`src/app.py:129` refuses (no turn is appended, nothing is answered);
otherwise the question is appended and the streaming block answers it. -/
def askStep (rag : String → List Msg → List StreamChunk) (s : SessionState)
    (q : String) : Except String SessionState :=
  match s.rag_chain with
  | none => Except.error noSourceMsg
  | some _ => Except.ok (respondStep rag (appendUserTurn s q))

/-- The fixed provided-context marker checked at `src/app.py:138`. -/
def contextMarker : String := "Based on the provided context:"

/-- The history-rendering gate at `src/app.py:136-141`: the sources
expander is shown for an assistant turn exactly when its text starts
with the marker and its attached context list is truthy (non-empty). -/
def showsSources : Msg → Bool
  | Msg.ai content ctx => startsWithStr content contextMarker && !ctx.isEmpty
  | Msg.human _ => false

/-! ## Video processor (`src/video_processor.py`)

The transcript API, the audio downloader (yt-dlp) and the Whisper model
are oracles; the file system is a list of file names.  Every exception
inside either function is caught and turned into `None`, so both are
modelled as total functions returning `Option String` together with the
resulting file system. -/

/-- Outcome of `YouTubeTranscriptApi().fetch(video_id)`: the snippet
texts, the `NoTranscriptFound` exception, or any other exception. -/
inductive FetchResult where
  | ok (snippets : List String)
  | noTranscript
  | otherError (msg : String)
deriving DecidableEq, Repr

/-- The video-id parse `youtube_url.split("v=")[1].split("&")[0]`
(`src/video_processor.py:16`): `none` models the `IndexError` raised
when the URL has no `"v="`. -/
def extract_video_id (url : String) : Option String :=
  match pySplit "v=" url with
  | _ :: p1 :: _ => some ((pySplit "&" p1).headD "")
  | _ => none

def audioFileMp3 : String := "temp_audio.mp3"

/-- `_transcribe_audio_with_whisper` (`src/video_processor.py:33-74`).
`download url fs` returns the file system after the yt-dlp call and
whether it raised; `transcribe url` is the Whisper transcription of the
downloaded audio (`none` models it raising).  The `try` body raises on a
failed download, on a missing `temp_audio.mp3` (`FileNotFoundError`) and
on a failed transcription; `except Exception` maps every raise to
`None`, and the `finally` block removes `temp_audio.mp3` when present on
every path. -/
def transcribe_audio_with_whisper
    (download : String → List String → List String × Bool)
    (transcribe : String → Option String)
    (fs : List String) (url : String) : List String × Option String :=
  let dl := download url fs
  let result : Option String :=
    if dl.2 then none
    else if dl.1.contains audioFileMp3 then transcribe url
    else none
  let fsFinal :=
    if dl.1.contains audioFileMp3 then dl.1.filter (fun f => f ≠ audioFileMp3)
    else dl.1
  (fsFinal, result)

/-- `get_video_transcript` (`src/video_processor.py:10-31`): parse the
video id (an unparsable URL raises into the generic handler), fetch the
transcript and join the snippet texts with spaces; on
`NoTranscriptFound` fall back to audio transcription; any other
exception returns `None`. -/
def get_video_transcript (fetch : String → FetchResult)
    (download : String → List String → List String × Bool)
    (transcribe : String → Option String)
    (fs : List String) (url : String) : List String × Option String :=
  match extract_video_id url with
  | none => (fs, none)
  | some vid =>
    match fetch vid with
    | FetchResult.ok snippets => (fs, some (pyJoin " " snippets))
    | FetchResult.noTranscript => transcribe_audio_with_whisper download transcribe fs url
    | FetchResult.otherError _ => (fs, none)

/-! ## Document upload cache (`src/app.py:68-82`, `load_and_cache_document`)

`hashlib.md5` and the two loaders are oracles; uploaded bytes are a list
of byte values.  The temp file is written under `temp_docs_cache/` keyed
by the content hash, the loader runs in a `try`, and the `finally` block
removes the temp file when present on both the success and the raise
path (`none` models a loader raising, which propagates to the caller
after cleanup). -/

/-- Python `os.path.splitext(name)[1]` for a bare file name: the suffix
from the last dot, where the leading dots of the name never start an
extension. -/
def splitextExt (name : String) : String :=
  let cs := name.data
  let lead := (cs.takeWhile (fun c => c = '.')).length
  let rest := cs.drop lead
  if rest.contains '.' then
    String.mk ('.' :: ((rest.reverse.takeWhile (fun c => c ≠ '.')).reverse))
  else ""

/-- The temp file path `os.path.join("temp_docs_cache", f"{file_hash}{file_extension}")`. -/
def tempDocPath (md5hex : List Nat → String) (file_content : List Nat)
    (file_name : String) : String :=
  "temp_docs_cache/" ++ md5hex file_content ++ splitextExt file_name

def pdfMime : String := "application/pdf"

def docxMime : String :=
  "application/vnd.openxmlformats-officedocument.wordprocessingml.document"

def load_and_cache_document (md5hex : List Nat → String)
    (pdfLoad docxLoad : String → Option (List Doc))
    (fs : List String) (file_content : List Nat) (file_name file_type : String) :
    List String × Option (List Doc) :=
  let temp_path := tempDocPath md5hex file_content file_name
  let fs1 := if fs.contains temp_path then fs else temp_path :: fs
  let result : Option (List Doc) :=
    if file_type = pdfMime then pdfLoad temp_path
    else if file_type = docxMime then docxLoad temp_path
    else some []
  let fs2 := if fs1.contains temp_path then fs1.filter (fun f => f ≠ temp_path) else fs1
  (fs2, result)

/-! ## Proof-support definitions -/

/-- Total character length of a list of splits. -/
def sumLens (l : List String) : Nat := (l.map String.length).sum

/-- A well-formed chunk: non-empty and within the configured size. -/
def chunkOk (c : String) : Prop := c ≠ "" ∧ c.length ≤ chunkSize

/-- Invariant of the `_merge_splits` loop state: the tracked total is the
window's character count, it never exceeds the chunk size, and every
emitted chunk is well formed. -/
def mergeInv (st : List String × List String × Nat) : Prop :=
  st.2.2 = sumLens st.2.1 ∧ st.2.2 ≤ chunkSize ∧ ∀ c ∈ st.1, chunkOk c

/-! ## Spec-side definitions for the chunking claim

These two follow the SPEC'S words (sliding window of size 1000 with
overlap 200), not the library code, so that the spec's chunking claim
can be stated and compared against the code's splitter. -/

/-- Modelled from the spec: consecutive chunks overlap by the configured
200 characters — the second chunk begins with the first chunk's final
200 characters. -/
def specExactOverlap (c1 c2 : String) : Prop :=
  c2.data.take chunkOverlap = c1.data.drop (c1.length - chunkOverlap)

instance (c1 c2 : String) : Decidable (specExactOverlap c1 c2) :=
  inferInstanceAs (Decidable (_ = _))

/-- Modelled from the spec: reconstruction of the original text by
removing the 200-character overlap from every chunk after the first. -/
def specRemoveOverlaps : List String → String
  | [] => ""
  | c :: rest => c ++ concatAll (rest.map (fun x => String.mk (x.data.drop chunkOverlap)))

/-! ## Concrete fixtures for witnesses and counterexamples -/

/-- A 99-character word; 18 of them joined by single spaces make a
1799-character text whose two chunks expose the splitter's boundary
behaviour. -/
def chunkCexWord : String := String.mk (List.replicate 99 'a')

def chunkCexText : String := pyJoin " " (List.replicate 18 chunkCexWord)

def c1Doc : Doc := ⟨"Paris is the capital of France."⟩

def c1State : SessionState :=
  { rag_chain := some ⟨[c1Doc]⟩, chat_history := [], suggested_questions := []
    source_name := "doc.pdf" }

def c1Answer : String := "Based on general knowledge: The sky is blue."

/-- A stream as the retrieval chain emits it: the retrieved context
documents arrive in a context chunk even when the generated answer is
a general-knowledge one. -/
def c1Rag : String → List Msg → List StreamChunk :=
  fun _ _ => [⟨some c1Answer, none⟩, ⟨none, some [c1Doc]⟩]

def c2State : SessionState :=
  { rag_chain := some ⟨[⟨"old content"⟩]⟩, chat_history := [Msg.human "pending?"]
    suggested_questions := ["old suggestion"], source_name := "old.pdf" }

def c3Rag : String → List Msg → List StreamChunk :=
  fun _ _ => [⟨some "Based on the provided context: Paris.", some [c1Doc]⟩]

def c4Docs : List Doc := [⟨"hello world"⟩]

def c6Url : String := "https://www.youtube.com/watch?v=abc123&t=5"

def c6Fetch : String → FetchResult := fun _ => FetchResult.noTranscript

def c6Download : String → List String → List String × Bool :=
  fun _ fs => (audioFileMp3 :: fs, false)

def c6Transcribe : String → Option String := fun _ => some "hello transcript"

def c10Url : String := "https://youtu.be/abc123"

/-! ## C2 — ingest atomicity -/

/-- C2: if `ingest` (process_new_source) fails partway — the vector
store build raising because the documents are empty or chunking yields
no chunks, or chain construction raising after the store was built —
then every field of the prior session state (active chain, chat
history, source label, pending suggestions) is exactly as before the
call. -/
theorem ingest_failure_preserves_state (llmInit : Bool) (llm : String → Option String)
    (s : SessionState) (docs : List Doc) (name : String) (e : String)
    (h : (process_new_source llmInit llm s docs name).2 = some e) :
    (process_new_source llmInit llm s docs name).1 = s := by
  unfold process_new_source at h ⊢
  cases hv : create_vector_store docs with
  | error e2 => simp
  | ok vs =>
    rw [hv] at h
    simp only [] at h ⊢
    cases hr : create_rag_chain llmInit vs with
    | error e3 => rfl
    | ok chain => rw [hr] at h; simp at h

theorem ingest_failure_preserves_state_witness :
    (process_new_source true (fun _ => none) c2State [] "new.pdf").1 = c2State :=
  ingest_failure_preserves_state true (fun _ => none) c2State [] "new.pdf"
    "Cannot create vector store from empty documents list." (by decide)

/-! ## C5 — indexing failure condition -/

/-- C5: building the vector index fails (the spec's `IndexingError`,
`raise ValueError` in the code) exactly when the input document list is
empty or chunking the documents yields zero chunks; on failure no
vector store value is produced (the result is `Except.error`). -/
theorem vector_store_error_iff (docs : List Doc) :
    (∃ e, create_vector_store docs = Except.error e) ↔
      (docs = [] ∨ split_documents docs = []) := by
  unfold create_vector_store
  by_cases h1 : docs.isEmpty
  · simp [h1, List.isEmpty_iff.mp h1]
  · by_cases h2 : (split_documents docs).isEmpty
    · simp [h1, h2, List.isEmpty_iff.mp h2]
    · simp [h1, h2]
      constructor
      · intro hn; exact absurd (List.isEmpty_iff.mpr hn) (by simp [h1])
      · intro hn; exact absurd (List.isEmpty_iff.mpr hn) (by simp [h2])

/-! ## C9 — ask before any ingest -/

/-- C9: if the session has no active chain (no source was ever
processed), asking is refused by the guard at `src/app.py:129` — the
interaction fails with the no-source refusal (the spec's
`RetrievalError`) and never returns an answer, empty or otherwise. -/
theorem ask_without_index_refused (rag : String → List Msg → List StreamChunk)
    (s : SessionState) (q : String) (h : s.rag_chain = none) :
    askStep rag s q = Except.error noSourceMsg := by
  unfold askStep
  rw [h]

theorem ask_without_index_refused_witness :
    askStep c1Rag initialSessionState "What is the capital of France?"
      = Except.error noSourceMsg :=
  ask_without_index_refused c1Rag initialSessionState "What is the capital of France?" rfl

/-! ## C3 — history growth on ask -/

/-- C3: with an active chain, a completed ask interaction appends
exactly two turns to the chat history — first the user turn carrying the
question, then the answer turn folded from the chain's stream — so the
history length grows by exactly 2. -/
theorem ask_appends_two_turns (rag : String → List Msg → List StreamChunk)
    (s : SessionState) (q : String) (rc : RagChain) (h : s.rag_chain = some rc) :
    ∃ t, askStep rag s q = Except.ok t ∧
      t.chat_history = s.chat_history ++
        [Msg.human q,
         Msg.ai (runStream (rag q s.chat_history)).1 (runStream (rag q s.chat_history)).2] ∧
      t.chat_history.length = s.chat_history.length + 2 := by
  have hh : (respondStep rag (appendUserTurn s q)).chat_history
      = s.chat_history ++
        [Msg.human q,
         Msg.ai (runStream (rag q s.chat_history)).1 (runStream (rag q s.chat_history)).2] := by
    unfold respondStep appendUserTurn
    simp [List.getLast?_concat, List.dropLast_concat]
  refine ⟨respondStep rag (appendUserTurn s q), by unfold askStep; rw [h], hh, ?_⟩
  rw [hh]
  simp

theorem ask_appends_two_turns_witness :
    ∃ t, askStep c3Rag c1State "capital?" = Except.ok t ∧
      t.chat_history = [] ++
        [Msg.human "capital?",
         Msg.ai (runStream (c3Rag "capital?" [])).1 (runStream (c3Rag "capital?" [])).2] ∧
      t.chat_history.length = List.length ([] : List Msg) + 2 :=
  ask_appends_two_turns c3Rag c1State "capital?" ⟨[c1Doc]⟩ rfl

/-! ## C4 — session reset on successful ingest -/

/-- C4: after any successful ingest the chat history is empty, the
source label equals the new source's name, the pending suggestions are
the ones computed (only) from the new source's documents, and a chain is
active. -/
theorem ingest_success_resets_session (llmInit : Bool) (llm : String → Option String)
    (s : SessionState) (docs : List Doc) (name : String)
    (h : (process_new_source llmInit llm s docs name).2 = none) :
    (process_new_source llmInit llm s docs name).1.chat_history = [] ∧
    (process_new_source llmInit llm s docs name).1.source_name = name ∧
    (process_new_source llmInit llm s docs name).1.suggested_questions
      = generate_suggested_questions llm docs ∧
    (process_new_source llmInit llm s docs name).1.rag_chain.isSome = true := by
  cases hv : create_vector_store docs with
  | error e2 => simp [process_new_source, hv] at h
  | ok vs =>
    cases hr : create_rag_chain llmInit vs with
    | error e3 => simp [process_new_source, hv, hr] at h
    | ok chain => simp [process_new_source, hv, hr]

theorem ingest_success_resets_session_witness :
    (process_new_source true (fun _ => none) c2State c4Docs "demo.txt").1.chat_history = [] ∧
    (process_new_source true (fun _ => none) c2State c4Docs "demo.txt").1.source_name
      = "demo.txt" ∧
    (process_new_source true (fun _ => none) c2State c4Docs "demo.txt").1.suggested_questions
      = generate_suggested_questions (fun _ => none) c4Docs ∧
    (process_new_source true (fun _ => none) c2State c4Docs "demo.txt").1.rag_chain.isSome
      = true :=
  ingest_success_resets_session true (fun _ => none) c2State c4Docs "demo.txt" (by decide)

/-! ## C1 — citation coupling -/

/-- C1 counterexample: a completed ask appends an answer Turn whose text
is a general-knowledge answer (it does not begin with the provided
context marker) and which nevertheless carries a non-empty citation set:
`src/app.py:157` attaches the streamed context documents to the
`AIMessage` unconditionally, without the prefix check. -/
theorem citation_attached_without_marker :
    (match askStep c1Rag c1State "Why is the sky blue?" with
     | Except.ok t => t.chat_history.getLast?
     | Except.error _ => none)
      = some (Msg.ai c1Answer [c1Doc]) ∧
    startsWithStr c1Answer contextMarker = false := by
  decide

/-- C1 amended: the appended answer Turn always carries exactly the
context documents folded from the chain's stream, regardless of whether
its text begins with the provided-context marker; the marker (together
with non-emptiness of the attached list) gates only the rendering of
the sources expander (`showsSources`, `src/app.py:138`). -/
theorem citation_attachment_and_display_gate
    (rag : String → List Msg → List StreamChunk) (s : SessionState) (q : String)
    (rc : RagChain) (h : s.rag_chain = some rc) :
    askStep rag s q = Except.ok
      { s with
          chat_history := s.chat_history ++
            [Msg.human q,
             Msg.ai (runStream (rag q s.chat_history)).1 (runStream (rag q s.chat_history)).2],
          suggested_questions := [] } ∧
    (∀ content ctx, showsSources (Msg.ai content ctx) = true ↔
      (startsWithStr content contextMarker = true ∧ ctx ≠ [])) := by
  constructor
  · unfold askStep
    rw [h]
    unfold respondStep appendUserTurn
    simp [List.getLast?_concat, List.dropLast_concat, h]
  · intro content ctx
    simp [showsSources, List.isEmpty_iff]

theorem citation_attachment_and_display_gate_witness :
    askStep c1Rag c1State "Why is the sky blue?" = Except.ok
      { c1State with
          chat_history := [Msg.human "Why is the sky blue?", Msg.ai c1Answer [c1Doc]],
          suggested_questions := [] } :=
  (citation_attachment_and_display_gate c1Rag c1State "Why is the sky blue?"
    ⟨[c1Doc]⟩ rfl).1

/-! ## C6 — video transcript fallback ordering -/

/-- C6: for a parsable video URL — if the transcript fetch succeeds the
result is the joined snippets and neither the audio download nor the
speech-to-text model is consulted (the result does not depend on those
oracles); if the fetch fails with `NoTranscriptFound` the result is
exactly the audio-transcription fallback (it is attempted before giving
up); any other fetch error is terminal: the result is `none` and the
fallback is never invoked. -/
theorem video_fallback_ordering (fetch : String → FetchResult)
    (download : String → List String → List String × Bool)
    (transcr : String → Option String) (fs : List String) (url : String)
    (vid : String) (h : extract_video_id url = some vid) :
    (∀ snippets, fetch vid = FetchResult.ok snippets →
      get_video_transcript fetch download transcr fs url
        = (fs, some (pyJoin " " snippets))) ∧
    (fetch vid = FetchResult.noTranscript →
      get_video_transcript fetch download transcr fs url
        = transcribe_audio_with_whisper download transcr fs url) ∧
    (∀ msg, fetch vid = FetchResult.otherError msg →
      get_video_transcript fetch download transcr fs url = (fs, none)) := by
  refine ⟨?_, ?_, ?_⟩
  · intro snippets hf
    simp [get_video_transcript, h, hf]
  · intro hf
    simp [get_video_transcript, h, hf]
  · intro msg hf
    simp [get_video_transcript, h, hf]

theorem video_fallback_ordering_witness :
    get_video_transcript c6Fetch c6Download c6Transcribe [] c6Url
      = transcribe_audio_with_whisper c6Download c6Transcribe [] c6Url :=
  (video_fallback_ordering c6Fetch c6Download c6Transcribe [] c6Url "abc123"
    (by decide)).2.1 rfl

/-! ## C10 — get_video_transcript is total over failures -/

/-- C10: `get_video_transcript` returns `None` rather than raising, for
every failure mode: a URL from which no video id can be parsed (no
`"v="`), a transcript-fetch error other than `NoTranscriptFound`, and
any failure inside the audio fallback (the download raising, the audio
file missing after download, or the transcription raising). -/
theorem video_transcript_never_raises (fetch : String → FetchResult)
    (download : String → List String → List String × Bool)
    (transcr : String → Option String) (fs : List String) (url : String) :
    (extract_video_id url = none →
      (get_video_transcript fetch download transcr fs url).2 = none) ∧
    (∀ vid msg, extract_video_id url = some vid → fetch vid = FetchResult.otherError msg →
      (get_video_transcript fetch download transcr fs url).2 = none) ∧
    (∀ vid, extract_video_id url = some vid → fetch vid = FetchResult.noTranscript →
      ((download url fs).2 = true ∨ (download url fs).1.contains audioFileMp3 = false ∨
        transcr url = none) →
      (get_video_transcript fetch download transcr fs url).2 = none) := by
  refine ⟨?_, ?_, ?_⟩
  · intro h
    simp [get_video_transcript, h]
  · intro vid msg h hf
    simp [get_video_transcript, h, hf]
  · intro vid h hf hfail
    simp only [get_video_transcript, h, hf]
    have hmem : ∀ hd : (download url fs).1.contains audioFileMp3 = false,
        ¬ audioFileMp3 ∈ (download url fs).1 := fun hd => by simpa using hd
    rcases hfail with hd | hd | hd
    · simp [transcribe_audio_with_whisper, hd]
    · simp [transcribe_audio_with_whisper, hmem hd]
    · simp [transcribe_audio_with_whisper, hd]

theorem video_transcript_never_raises_witness :
    (get_video_transcript c6Fetch c6Download c6Transcribe [] c10Url).2 = none :=
  (video_transcript_never_raises c6Fetch c6Download c6Transcribe [] c10Url).1 (by decide)

/-! ## C8 — temporary files are always removed -/

/-- Filtering a value out of a list leaves a list that does not contain it. -/
theorem contains_filter_ne_self (l : List String) (a : String) :
    (l.filter (fun f => f ≠ a)).contains a = false := by
  simp [List.mem_filter]

/-- C8: the content-hash-keyed temp file of a document upload is present
in the file system after `load_and_cache_document` on no path (success,
unknown type, or a loader raising) — the resulting file system is the
prior one with that path removed and nothing else changed; and the
intermediate audio file `temp_audio.mp3` of the video transcription
fallback is absent after `_transcribe_audio_with_whisper` on every path
(download raising, file missing, transcription raising, or success). -/
theorem temp_files_removed_always (md5hex : List Nat → String)
    (pdfLoad docxLoad : String → Option (List Doc)) (fs : List String)
    (content : List Nat) (name ftype : String)
    (download : String → List String → List String × Bool)
    (transcr : String → Option String) (fs2 : List String) (url : String) :
    (load_and_cache_document md5hex pdfLoad docxLoad fs content name ftype).1
      = fs.filter (fun f => f ≠ tempDocPath md5hex content name) ∧
    (transcribe_audio_with_whisper download transcr fs2 url).1.contains audioFileMp3
      = false := by
  constructor
  · unfold load_and_cache_document
    by_cases hc : tempDocPath md5hex content name ∈ fs
    · simp [hc]
    · simp [hc]
  · unfold transcribe_audio_with_whisper
    by_cases hc : audioFileMp3 ∈ (download url fs2).1
    · simp [hc, List.mem_filter]
    · simp [hc]

/-! ## C7 — chunking: supporting lemmas -/

theorem sumLens_nil : sumLens [] = 0 := rfl

theorem sumLens_cons (s : String) (l : List String) :
    sumLens (s :: l) = s.length + sumLens l := by
  simp [sumLens]

theorem sumLens_append (l1 l2 : List String) :
    sumLens (l1 ++ l2) = sumLens l1 + sumLens l2 := by
  simp [sumLens]

theorem dropWhile_length_le (p : Char → Bool) (l : List Char) :
    (l.dropWhile p).length ≤ l.length :=
  (List.dropWhile_sublist p).length_le

theorem pyStrip_length_le (s : String) : (pyStrip s).length ≤ s.length := by
  unfold pyStrip
  calc (String.mk (((s.data.dropWhile isPySpace).reverse.dropWhile isPySpace).reverse)).length
      = ((s.data.dropWhile isPySpace).reverse.dropWhile isPySpace).length := by
        simp [String.length]
    _ ≤ (s.data.dropWhile isPySpace).reverse.length := dropWhile_length_le _ _
    _ = (s.data.dropWhile isPySpace).length := by simp
    _ ≤ s.data.length := dropWhile_length_le _ _
    _ = s.length := rfl

theorem concatAll_length (l : List String) : (concatAll l).length = sumLens l := by
  induction l with
  | nil => rfl
  | cons s rest ih => simp [concatAll, String.length_append, ih, sumLens_cons]

theorem joinDocs_spec (current : List String) (c : String)
    (h : joinDocs current = some c) : c ≠ "" ∧ c.length ≤ sumLens current := by
  unfold joinDocs at h
  by_cases he : pyStrip (concatAll current) = ""
  · simp [he] at h
  · simp only [he, if_neg, if_false] at h
    have hc : c = pyStrip (concatAll current) := by
      cases h
      rfl
    subst hc
    exact ⟨he, le_trans (pyStrip_length_le _) (le_of_eq (concatAll_length _))⟩

theorem popLoop_spec (lenD : Nat) :
    ∀ (current : List String) (total : Nat), total = sumLens current →
      (popLoop lenD current total).2 = sumLens (popLoop lenD current total).1 ∧
      (popLoop lenD current total).2 ≤ chunkOverlap ∧
      ((popLoop lenD current total).2 + lenD ≤ chunkSize ∨
        (popLoop lenD current total).2 = 0) := by
  intro current
  induction current with
  | nil =>
    intro total ht
    rw [sumLens_nil] at ht
    subst ht
    exact ⟨rfl, Nat.zero_le _, Or.inr rfl⟩
  | cons h t ih =>
    intro total ht
    unfold popLoop
    by_cases hcond : chunkOverlap < total ∨ (chunkSize < total + lenD ∧ 0 < total)
    · rw [if_pos hcond]
      apply ih
      rw [ht, sumLens_cons]
      omega
    · rw [if_neg hcond]
      push_neg at hcond
      refine ⟨ht, hcond.1, ?_⟩
      by_cases hz : 0 < total
      · exact Or.inl (by have := hcond.2 ; omega)
      · exact Or.inr (by omega)

theorem mergeStep_inv (st : List String × List String × Nat) (d : String)
    (hst : mergeInv st) (hd : d.length < chunkSize) : mergeInv (mergeStep st d) := by
  obtain ⟨h1, h2, h3⟩ := hst
  unfold mergeStep
  by_cases hbig : chunkSize < st.2.2 + d.length
  · by_cases hemp : st.2.1.isEmpty
    · exfalso
      rw [List.isEmpty_iff.mp hemp, sumLens_nil] at h1
      omega
    · simp only [hbig, if_true, hemp, Bool.false_eq_true, if_false, if_pos, if_neg]
      have hpop := popLoop_spec d.length st.2.1 st.2.2 h1
      refine ⟨?_, ?_, ?_⟩
      · simp only [sumLens_append, sumLens_cons, sumLens_nil]
        omega
      · have := hpop.2.2
        have h200 : (popLoop d.length st.2.1 st.2.2).2 ≤ chunkOverlap := hpop.2.1
        simp only [chunkOverlap, chunkSize] at *
        omega
      · intro c hc
        rcases List.mem_append.mp hc with hc | hc
        · exact h3 c hc
        · have hj : joinDocs st.2.1 = some c := by
            cases hcase : joinDocs st.2.1 with
            | none => rw [hcase] at hc; simp at hc
            | some c2 => rw [hcase] at hc; simp at hc; rw [hc]
          obtain ⟨hne, hlen⟩ := joinDocs_spec _ _ hj
          exact ⟨hne, le_trans hlen (h1 ▸ h2)⟩
  · simp only [hbig, if_neg, if_false]
    refine ⟨?_, ?_, h3⟩
    · simp only [sumLens_append, sumLens_cons, sumLens_nil]
      omega
    · show st.2.2 + d.length ≤ chunkSize
      omega

theorem foldl_mergeStep_inv :
    ∀ (splits : List String) (st : List String × List String × Nat),
      mergeInv st → (∀ x ∈ splits, x.length < chunkSize) →
      mergeInv (splits.foldl mergeStep st) := by
  intro splits
  induction splits with
  | nil => intro st hst _; simpa using hst
  | cons s rest ih =>
    intro st hst hs
    rw [List.foldl_cons]
    exact ih _ (mergeStep_inv st s hst (hs s (by simp)))
      (fun x hx => hs x (by simp [hx]))

theorem mergeSplits_sound (splits : List String)
    (hs : ∀ x ∈ splits, x.length < chunkSize) :
    ∀ c ∈ mergeSplits splits, chunkOk c := by
  intro c hc
  unfold mergeSplits at hc
  have hinv : mergeInv (splits.foldl mergeStep ([], [], 0)) :=
    foldl_mergeStep_inv splits ([], [], 0) ⟨rfl, Nat.zero_le _, by simp⟩ hs
  obtain ⟨h1, h2, h3⟩ := hinv
  rcases List.mem_append.mp hc with hc2 | hc2
  · exact h3 c hc2
  · have hj : joinDocs (splits.foldl mergeStep ([], [], 0)).2.1 = some c := by
      cases hcase : joinDocs (splits.foldl mergeStep ([], [], 0)).2.1 with
      | none => rw [hcase] at hc2; simp at hc2
      | some c2 => rw [hcase] at hc2; simp at hc2; rw [hc2]
    obtain ⟨hne, hlen⟩ := joinDocs_spec _ _ hj
    exact ⟨hne, le_trans hlen (h1 ▸ h2)⟩

theorem chooseSepAux_spec :
    ∀ (seps : List String) (text : String), "" ∈ seps →
      chooseSepAux seps text = some ("", []) ∨
      ∃ s rest, chooseSepAux seps text = some (s, rest) ∧ "" ∈ rest := by
  intro seps
  induction seps with
  | nil => intro text h; simp at h
  | cons s rest ih =>
    intro text hmem
    by_cases hs : s = ""
    · left
      simp [chooseSepAux, hs]
    · have hrest : "" ∈ rest := by
        rcases List.mem_cons.mp hmem with h | h
        · exact absurd h.symm hs
        · exact h
      by_cases hc : containsSub text.data s.data
      · right
        exact ⟨s, rest, by simp [chooseSepAux, hs, hc], hrest⟩
      · have := ih text hrest
        simpa [chooseSepAux, hs, hc] using this

theorem chooseSep_spec (seps : List String) (text : String) (h : "" ∈ seps) :
    ((chooseSep seps text).1 = "" ∧ (chooseSep seps text).2 = []) ∨
    "" ∈ (chooseSep seps text).2 := by
  unfold chooseSep
  rcases chooseSepAux_spec seps text h with h2 | ⟨s, rest, h2, h3⟩
  · rw [h2]
    exact Or.inl ⟨rfl, rfl⟩
  · rw [h2]
    exact Or.inr h3

theorem splitWithSep_empty_sep (text : String) :
    ∀ s ∈ splitWithSep "" text, s.length = 1 := by
  intro s hs
  unfold splitWithSep at hs
  rw [if_pos rfl] at hs
  rcases List.mem_filter.mp hs with ⟨hmem, _⟩
  rcases List.mem_map.mp hmem with ⟨c, _, rfl⟩
  rfl

theorem splitFold_sound (handleBig : String → List String) :
    ∀ (splits : List String) (acc : List String × List String),
      (∀ s ∈ splits, chunkSize ≤ s.length → ∀ c ∈ handleBig s, chunkOk c) →
      (∀ c ∈ acc.1, chunkOk c) → (∀ x ∈ acc.2, x.length < chunkSize) →
      ∀ c ∈ splitFinish (splits.foldl (splitStep handleBig) acc), chunkOk c := by
  intro splits
  induction splits with
  | nil =>
    intro acc _ h1 h2 c hc
    unfold splitFinish at hc
    rw [List.foldl_nil] at hc
    rcases List.mem_append.mp hc with hc2 | hc2
    · exact h1 c hc2
    · by_cases he : acc.2.isEmpty
      · rw [if_pos he] at hc2
        simp at hc2
      · rw [if_neg he] at hc2
        exact mergeSplits_sound acc.2 h2 c hc2
  | cons s rest ih =>
    intro acc hbig h1 h2 c hc
    rw [List.foldl_cons] at hc
    by_cases hlen : s.length < chunkSize
    · have hstep : splitStep handleBig acc s = (acc.1, acc.2 ++ [s]) := by
        unfold splitStep
        rw [if_pos hlen]
      rw [hstep] at hc
      refine ih (acc.1, acc.2 ++ [s])
        (fun x hx hbx => hbig x (by simp [hx]) hbx) h1 ?_ c hc
      intro x hx
      rcases List.mem_append.mp hx with hx2 | hx2
      · exact h2 x hx2
      · simp at hx2
        subst hx2
        exact hlen
    · have hstep : splitStep handleBig acc s
          = (acc.1 ++ (if acc.2.isEmpty then [] else mergeSplits acc.2) ++ handleBig s, []) := by
        unfold splitStep
        rw [if_neg hlen]
      rw [hstep] at hc
      refine ih _ (fun x hx hbx => hbig x (by simp [hx]) hbx) ?_ (by simp) c hc
      intro x hx
      rcases List.mem_append.mp hx with hx2 | hx2
      · rcases List.mem_append.mp hx2 with hx3 | hx3
        · exact h1 x hx3
        · by_cases he : acc.2.isEmpty
          · rw [if_pos he] at hx3
            simp at hx3
          · rw [if_neg he] at hx3
            exact mergeSplits_sound acc.2 h2 x hx3
      · exact hbig s (by simp) (le_of_not_lt hlen) x hx2

theorem recSplit_all :
    ∀ (fuel : Nat) (seps : List String) (text : String), "" ∈ seps →
      ∀ c ∈ recSplit fuel seps text, chunkOk c := by
  intro fuel
  induction fuel with
  | zero => intro seps text _ c hc; simp [recSplit] at hc
  | succ f ih =>
    intro seps text hsep c hc
    simp only [recSplit] at hc
    rcases chooseSep_spec seps text hsep with ⟨h1, h2⟩ | h2
    · refine splitFold_sound _ _ ([], []) ?_ (by simp) (by simp) c hc
      intro s hs hlen c2 hc2
      rw [h1] at hs
      have := splitWithSep_empty_sep text s hs
      rw [this] at hlen
      exact absurd hlen (by simp [chunkSize])
    · refine splitFold_sound _ _ ([], []) ?_ (by simp) (by simp) c hc
      intro s hs hlen c2 hc2
      have hne : ¬ (chooseSep seps text).2.isEmpty = true := by
        intro he
        rw [List.isEmpty_iff.mp he] at h2
        simp at h2
      rw [if_neg hne] at hc2
      exact ih (chooseSep seps text).2 s h2 c2 hc2

/-- C7 amended: every chunk that `split_documents` produces for the
vector store is non-empty and at most `chunkSize` (1000) characters
long.  (The exact-200-overlap and overlap-removal-reconstruction parts
of the claim are refuted by `chunking_not_exact_sliding_window`.) -/
theorem chunks_nonempty_and_bounded (docs : List Doc) :
    ∀ c ∈ split_documents docs, c.page_content ≠ "" ∧ c.page_content.length ≤ chunkSize := by
  intro c hc
  unfold split_documents at hc
  rw [List.mem_flatMap] at hc
  obtain ⟨d, _, hc⟩ := hc
  rw [List.mem_map] at hc
  obtain ⟨chunk, hchunk, rfl⟩ := hc
  exact recSplit_all _ _ _ (by simp [defaultSeparators]) chunk hchunk

set_option maxRecDepth 100000 in
/-- C7 counterexample: on a 1799-character text of 99-character words
separated by single spaces the splitter produces two chunks, the second
chunk does not begin with the first chunk's final 200 characters (the
overlap is not the configured 200), and removing 200-character overlaps
does not reproduce the original text (boundary whitespace was
stripped).  So chunking is not the exact sliding window the claim
describes. -/
theorem chunking_not_exact_sliding_window :
    (split_text chunkCexText).length = 2 ∧
    ¬ specExactOverlap ((split_text chunkCexText).getD 0 "")
        ((split_text chunkCexText).getD 1 "") ∧
    specRemoveOverlaps (split_text chunkCexText) ≠ chunkCexText := by
  decide

theorem chunks_nonempty_and_bounded_witness :
    (⟨"hello world"⟩ : Doc).page_content ≠ "" ∧
    (⟨"hello world"⟩ : Doc).page_content.length ≤ chunkSize :=
  chunks_nonempty_and_bounded c4Docs ⟨"hello world"⟩ (by decide)
